import Mathlib

/-!
Shallow embedding of the turnover OData ETL program (src/etl.py) and proofs
about its extraction engine.

Modelling conventions:
* decoded JSON payloads are values of the inductive type `Json`; Python
  dictionaries are association lists whose keys are unique, and `dict.get`
  returns `Json.null` for an absent key (Python's `None`);
* each outbound HTTP request consumes the next response from a finite,
  explicit response script (the server oracle); results carry the full
  request log so that theorems can speak about which requests were issued;
* `requests.Response.ok` is `status < 400`, and `raise_for_status` is
  modelled as returning `Except.error (.httpError status text)`; statuses
  are HTTP statuses (below 600), for which `raise_for_status` raises on
  exactly the non-ok range;
* `time.sleep` pauses are dropped (no real time in the model), and the
  pandas post-processing of `run_etl` (rename / reorder / drop_duplicates)
  is outside the extraction core, so `run_etl` is modelled up to the
  accumulated record list, the per-partition failure log and the request
  log.
-/

namespace Etl

/-- Decoded JSON values, as produced by `response.json()`. -/
inductive Json where
  | null : Json
  | bool : Bool → Json
  | num : Int → Json
  | str : String → Json
  | arr : List Json → Json
  | obj : List (String × Json) → Json

/-- First value bound to key `k` in an association list (Python dict lookup;
keys of a decoded JSON object are unique, so first match is the match). -/
def jlookup (k : String) : List (String × Json) → Option Json
  | [] => none
  | (k', v) :: rest => if k' = k then some v else jlookup k rest

/-- Python truthiness of a decoded JSON value (`None`, `False`, `0`, `""`,
`[]`, `{}` are falsy; everything else is truthy). -/
def Json.isTruthy : Json → Bool
  | .null => false
  | .bool b => b
  | .num n => n != 0
  | .str s => s != ""
  | .arr a => !a.isEmpty
  | .obj o => !o.isEmpty

/-- Python `d.get(k, default)`: the stored value when the key is present
(even when that value is JSON null), otherwise the default.  Looking up in a
non-object is outside the program's reachable states and yields the default. -/
def Json.getD (j : Json) (k : String) (d : Json) : Json :=
  match j with
  | .obj kvs =>
    match jlookup k kvs with
    | some v => v
    | none => d
  | _ => d

/-- Python `d.get(k)`: absent keys give `None` (here `Json.null`). -/
def Json.get (j : Json) (k : String) : Json :=
  j.getD k Json.null

/-- Python `k in d` for a decoded JSON object. -/
def Json.hasKey (j : Json) (k : String) : Bool :=
  match j with
  | .obj kvs => (jlookup k kvs).isSome
  | _ => false

/-- Python `a or b` on two decoded JSON values: `a` when truthy, else `b`. -/
def pyOr (a b : Json) : Json :=
  if a.isTruthy then a else b

/-- Elements of a JSON array; the source only ever iterates/extends with
list-shaped `results`/`value` members, so non-arrays contribute nothing. -/
def Json.toRows : Json → List Json
  | .arr a => a
  | _ => []

/-- One HTTP response of the server oracle: status code, decoded JSON body
and raw body text (the text is what the error-message pattern scans). -/
structure HttpResponse where
  status : Nat
  body : Json
  text : String

/-- `requests.Response.ok`: true for status codes below 400. -/
def HttpResponse.ok (r : HttpResponse) : Bool :=
  r.status < 400

/-- One outbound GET request: target URL (a continuation request carries the
token value verbatim, hence `Json`) and its query parameters in insertion
order. -/
structure Request where
  url : Json
  params : List (String × String)

/-- Classified failures of the extraction core. -/
inductive EtlError where
  /-- `raise_for_status` on a non-ok response (status code and body text). -/
  | httpError (status : Nat) (text : String)
  /-- The response script was exhausted: the oracle has no answer for a
  request the program issued (no Python counterpart; it marks runs the
  finite script does not cover). -/
  | noResponse
  /-- Named by the spec for exhausted partition-key candidates; the code
  never produces it (see the partition-discovery theorems). -/
  | noPartitionKeyFound
deriving DecidableEq

/-- Result of a fetch: outcome, full request log in issue order, and the
unconsumed tail of the response script. -/
structure FetchOut (α : Type) where
  result : Except EtlError α
  log : List Request
  leftover : List HttpResponse

-- ---------------------- Config ----------------------
-- Environment lookups (`env_or_default`) resolved to their defaults; the
-- claims do not depend on the concrete URL strings.

def SAP_BASE_URL : String := "https://my438923.businessbydesign.cloud.sap"

def SAP_ODATA_PATH : String := "sap/byd/odata/ana_businessanalytics_analytics.svc"

def SAP_CODES_QUERY : String := "RPZDA829C3EFFC649C58434CCQueryResults"

def SAP_MAIN_QUERY : String := "RPZDA829C3EFFC649C58434CCQueryResults"

/-- `_root_url` in the source. -/
def root_url : String := SAP_BASE_URL ++ "/" ++ SAP_ODATA_PATH

/-- `_entity_url` in the source. -/
def entity_url (entity : String) : String := root_url ++ "/" ++ entity

/-- Fields requested by default (`SELECT_FIELDS` in the source). -/
def SELECT_FIELDS : List String :=
  ["FCABSENCE_TIME", "UCABSENCE_TIME", "C0DATEFROM", "C0DATETO",
   "CEMPLOYEE_UUID", "TEMPLOYEE_UUID", "RCHEADCOUNT", "FCHEADCOUNT",
   "UCHEADCOUNT", "FCPLANNED_TIME", "UCPLANNED_TIME", "CPROJECT_UUID",
   "TPROJECT_UUID", "FCRECORDED_TIME", "UCRECORDED_TIME",
   "RCCOMPLIANCE_RATE", "FCCOMPLIANCE_RATE", "UCCOMPLIANCE_RATE",
   "KCABSENCE_TIME", "KCHEADCOUNT", "KCPLANNED_TIME", "KCRECORDED_TIME",
   "KCCOMPLIANCE_RATE", "C0CHAR_STRUCTURE"]

-- ---------------------- Response unwrapping ----------------------

/-- `_extract_results_and_next`: OData v2 payloads (marker key `"d"`) give
`d.get("results", [])` and `d.get("__next")`; otherwise the modern shape
gives `data.get("value", [])` and
`data.get("@odata.nextLink") or data.get("odata.nextLink")`. -/
def extract_results_and_next (data : Json) : Json × Json :=
  if data.hasKey "d" then
    let d := data.get "d"
    (d.getD "results" (Json.arr []), d.get "__next")
  else
    (data.getD "value" (Json.arr []),
     pyOr (data.get "@odata.nextLink") (data.get "odata.nextLink"))

-- ---------------------- Error-message pattern ----------------------
-- `_extract_missing_segment` applies `re.search(r"segment\s+'([^']+)'", text)`.
-- The embedding implements exactly that search: the leftmost position where
-- the literal `segment` is followed by at least one whitespace character,
-- then a quoted non-empty run of non-quote characters.  The pattern is
-- deterministic (no backtracking can change the match), so a direct scan is
-- faithful.  `\s` is modelled on the ASCII whitespace characters; the
-- service's error texts are ASCII.

def quoteChar : Char := '\''

/-- ASCII whitespace recognised by the regex class `\s`. -/
def isPySpace (c : Char) : Bool :=
  c = ' ' || c = '\t' || c = '\n' || c = '\r' || c = '\x0b' || c = '\x0c'

/-- Characters before the closing quote, or `none` when no closing quote
follows (`[^']*'` with the `'` required). -/
def takeCapture : List Char → Option (List Char)
  | [] => none
  | c :: cs =>
    if c = quoteChar then some []
    else (takeCapture cs).map (c :: ·)

/-- Match `segment\s+'([^']+)'` anchored at the head of `cs`, returning the
captured group. -/
def matchSegmentAt (cs : List Char) : Option (List Char) :=
  if ("segment".toList).isPrefixOf cs then
    match cs.drop 7 with
    | c :: _ =>
      if isPySpace c then
        match (cs.drop 7).dropWhile isPySpace with
        | q :: more =>
          if q = quoteChar then
            match takeCapture more with
            | some (c0 :: cap) => some (c0 :: cap)
            | _ => none
          else none
        | [] => none
      else none
    | [] => none
  else none

/-- Leftmost match of the pattern over the whole text (`re.search`). -/
def searchSegment : List Char → Option (List Char)
  | [] => none
  | c :: cs =>
    match matchSegmentAt (c :: cs) with
    | some cap => some cap
    | none => searchSegment cs

/-- `_extract_missing_segment` in the source. -/
def extract_missing_segment (s : String) : Option String :=
  (searchSegment s.data).map fun cs => String.mk cs

-- ---------------------- Field negotiation ----------------------

/-- One negotiation step, the condition sequence of the 404 branch of
`fetch_rows_for_access_code` (lines 167-172): on a 404 whose text names a
missing segment that is currently requested, with at least two fields
requested, drop that field; in every other case the response is not
negotiable.  Returns the dropped field together with the reduced list. -/
def negotiateStep (fields : List String) (status : Nat) (text : String) :
    Option (String × List String) :=
  if status = 404 then
    match extract_missing_segment text with
    | some missing =>
      if missing ∈ fields ∧ 1 < fields.length then
        some (missing, fields.erase missing)
      else none
    | none => none
  else none

/-- Field sets and dropped fields produced by iterating `negotiateStep`
over a sequence of rejection responses (status code and body text), the
way the retry loop of `fetch_rows_for_access_code` does while every
response is a negotiable rejection. -/
def negotiationTrace (fields : List String) :
    List (Nat × String) → List (String × List String)
  | [] => []
  | (status, text) :: rest =>
    match negotiateStep fields status text with
    | some (missing, reduced) => (missing, reduced) :: negotiationTrace reduced rest
    | none => []

-- ---------------------- Escaping and request building ----------------------

/-- Characters of `code.replace("'", "''")`: the pattern is the single
character `'`, so the replacement doubles each quote and leaves every other
character unchanged. -/
def escChars : List Char → List Char
  | [] => []
  | c :: cs =>
    if c = quoteChar then quoteChar :: quoteChar :: escChars cs
    else c :: escChars cs

/-- The escaped filter value `code.replace("'", "''")`. -/
def escapeQuotes (code : String) : String :=
  String.mk (escChars code.data)

/-- URL of the main query entity. -/
def main_url : String := entity_url SAP_MAIN_QUERY

/-- URL of the codes query entity. -/
def codes_url : String := entity_url SAP_CODES_QUERY

/-- Query parameters of a first-page request of
`fetch_rows_for_access_code`, in the source's insertion order. -/
def mkParams (fields : List String) (top : Nat) (filter_value : String) :
    List (String × String) :=
  [("$select", String.intercalate "," fields),
   ("$top", toString top),
   ("$filter", "C0CHAR_STRUCTURE eq '" ++ filter_value ++ "'")]

/-- A first-page request of `fetch_rows_for_access_code`. -/
def mkMainReq (fields : List String) (top : Nat) (filter_value : String) :
    Request :=
  ⟨Json.str main_url, mkParams fields top filter_value⟩

-- ---------------------- Pagination ----------------------

/-- The inner paging loop of `fetch_rows_for_access_code` (lines 157-161):
while `next_link` is truthy, issue a GET to the link itself with empty
parameters, unwrap, extend the accumulator and continue; a non-ok response
raises (`_get_json_or_raise`). -/
def followPages : List HttpResponse → Json → List Json → FetchOut (List Json)
  | server, next_link, acc =>
    if next_link.isTruthy then
      match server with
      | [] => ⟨.error .noResponse, [⟨next_link, []⟩], []⟩
      | r :: rest =>
        if r.ok then
          let (rows, next_link') := extract_results_and_next r.body
          let out := followPages rest next_link' (acc ++ rows.toRows)
          ⟨out.result, ⟨next_link, []⟩ :: out.log, out.leftover⟩
        else
          ⟨.error (.httpError r.status r.text), [⟨next_link, []⟩], rest⟩
    else ⟨.ok acc, [], server⟩

/-- The retry loop of `fetch_rows_for_access_code` (lines 141-176): issue a
first-page request with the working field list; on success unwrap and
follow pagination; on a negotiable 404 drop the named field and retry the
same page; on any other failure raise.  Every iteration consumes one
scripted response, so the recursion is on the script. -/
def fetchRowsLoop : String → Nat → List String → List HttpResponse →
    FetchOut (List Json)
  | filter_value, top, fields, [] =>
    ⟨.error .noResponse, [mkMainReq fields top filter_value], []⟩
  | filter_value, top, fields, r :: rest =>
    if r.ok then
      let (rows, next_link) := extract_results_and_next r.body
      let out := followPages rest next_link rows.toRows
      ⟨out.result, mkMainReq fields top filter_value :: out.log, out.leftover⟩
    else
      match negotiateStep fields r.status r.text with
      | some (_, reduced) =>
        let out := fetchRowsLoop filter_value top reduced rest
        ⟨out.result, mkMainReq fields top filter_value :: out.log, out.leftover⟩
      | none =>
        ⟨.error (.httpError r.status r.text), [mkMainReq fields top filter_value], rest⟩

/-- `fetch_rows_for_access_code`: the working field list starts as a copy of
`SELECT_FIELDS` on every call, and the filter value is the escaped code. -/
def fetch_rows_for_access_code (code : String) (top_per_page : Nat)
    (server : List HttpResponse) : FetchOut (List Json) :=
  fetchRowsLoop (escapeQuotes code) top_per_page SELECT_FIELDS server

/-- `_paged_fetch` (lines 115-129; present in the source but never called):
first request with the given parameters, then continuation requests with
empty parameters while a truthy next link is returned. -/
def paged_fetch (url : Json) (params : List (String × String))
    (server : List HttpResponse) : FetchOut (List Json) :=
  match server with
  | [] => ⟨.error .noResponse, [⟨url, params⟩], []⟩
  | r :: rest =>
    if r.ok then
      let (rows, next_link) := extract_results_and_next r.body
      let out := followPages rest next_link rows.toRows
      ⟨out.result, ⟨url, params⟩ :: out.log, out.leftover⟩
    else
      ⟨.error (.httpError r.status r.text), [⟨url, params⟩], rest⟩

-- ---------------------- Partition discovery ----------------------

/-- One row's contribution to the code list:
`r.get("C0CHAR_STRUCTURE")` kept when truthy.  The column carries string
values (non-string truthy values would make Python's later
`sorted(set(codes))` heterogeneous), so the embedding keeps exactly the
non-empty string values and drops null/absent/empty ones. -/
def getCode (row : Json) : Option String :=
  match row.get "C0CHAR_STRUCTURE" with
  | .str s => if s = "" then none else some s
  | _ => none

/-- The raw (unsorted, possibly duplicated) code list of
`fetch_distinct_access_codes`. -/
def rawCodes (results : Json) : List String :=
  results.toRows.filterMap getCode

/-- Python's string comparison: lexicographic on the code-point sequences.
Stated on `String.data` so that closed instances evaluate. -/
def strLt (s t : String) : Bool :=
  decide (s.data < t.data)

/-- Ascending insertion keeping the list duplicate-free; inserting an
element already present leaves the list unchanged. -/
def insertUnique (s : String) : List String → List String
  | [] => [s]
  | t :: ts =>
    if s = t then t :: ts
    else if strLt s t then s :: t :: ts
    else t :: insertUnique s ts

/-- `sorted(set(l))`: the strictly ascending enumeration of the elements of
`l` (Python sorts strings lexicographically by code point, as Lean's
`String` order does). -/
def sortedDedup (l : List String) : List String :=
  l.foldr insertUnique []

/-- Query parameters of the codes request. -/
def mkCodesReq (top : Nat) : Request :=
  ⟨Json.str codes_url, [("$select", "C0CHAR_STRUCTURE"), ("$top", toString top)]⟩

/-- `fetch_distinct_access_codes`: one request selecting only
`C0CHAR_STRUCTURE`, unwrap, keep truthy values, deduplicate and sort. -/
def fetch_distinct_access_codes (top : Nat) :
    List HttpResponse → FetchOut (List String)
  | [] => ⟨.error .noResponse, [mkCodesReq top], []⟩
  | r :: rest =>
    if r.ok then
      let (results, _) := extract_results_and_next r.body
      ⟨.ok (sortedDedup (rawCodes results)), [mkCodesReq top], rest⟩
    else
      ⟨.error (.httpError r.status r.text), [mkCodesReq top], rest⟩

-- ---------------------- Orchestrator ----------------------

/-- Outcome of a run: accumulated records, codes whose fetch raised (one
log entry per failed code, in run order) and the request log. -/
structure RunOut where
  records : List Json
  failures : List String
  log : List Request

/-- The per-code loop of `run_etl` (lines 187-194): each code's fetch is
attempted with its own response script; an exception is caught and logged
and the loop continues with the next code. -/
def runCodes (scriptFor : String → List HttpResponse) :
    List String → RunOut
  | [] => ⟨[], [], []⟩
  | code :: rest =>
    let out := fetch_rows_for_access_code code 5000 (scriptFor code)
    let tail := runCodes scriptFor rest
    match out.result with
    | .ok rows => ⟨rows ++ tail.records, tail.failures, out.log ++ tail.log⟩
    | .error _ => ⟨tail.records, code :: tail.failures, out.log ++ tail.log⟩

/-- `run_etl` up to the unified record list: discovery (top 10000) drives
the per-code loop; a discovery failure is not caught and aborts the run.
The pandas normalization of the accumulated records is outside the
extraction core. -/
def run_etl (discServer : List HttpResponse)
    (scriptFor : String → List HttpResponse) : Except EtlError RunOut :=
  let disc := fetch_distinct_access_codes 10000 discServer
  match disc.result with
  | .error e => .error e
  | .ok codes =>
    let body := runCodes scriptFor codes
    .ok ⟨body.records, body.failures, disc.log ++ body.log⟩

-- ---------------------- Observation helpers ----------------------

/-- True exactly on failed outcomes. -/
def isErr {ε α : Type} : Except ε α → Bool
  | .error _ => true
  | .ok _ => false

/-- The `$select` parameter of every request of a successful run, in issue
order. -/
def runSelects (o : Except EtlError RunOut) : List (Option String) :=
  match o with
  | .ok out => out.log.map fun req => req.params.lookup "$select"
  | .error _ => []

/-- The failure log of a successful run. -/
def runFailures (o : Except EtlError RunOut) : List String :=
  match o with
  | .ok out => out.failures
  | .error _ => []

-- ---------------------- Concrete scenario payloads ----------------------

/-- A modern-shape page body with the given rows and next link. -/
def mkPageResp (p : List Json × Json) : HttpResponse :=
  ⟨200, Json.obj [("value", Json.arr p.1), ("@odata.nextLink", p.2)], ""⟩

/-- A well-formed continuation chain of page specs: at least one page, a
truthy next link on every page but the last, a falsy one on the last. -/
def chainOK : List (List Json × Json) → Bool
  | [] => false
  | [p] => !p.2.isTruthy
  | p :: rest => p.2.isTruthy && chainOK rest

/-- Discovery response listing the two partition values A and B. -/
def discResp : HttpResponse :=
  ⟨200,
   Json.obj [("value", Json.arr
     [Json.obj [("C0CHAR_STRUCTURE", Json.str "A")],
      Json.obj [("C0CHAR_STRUCTURE", Json.str "B")]])],
   ""⟩

/-- A successful empty page with no continuation link. -/
def okEmpty : HttpResponse :=
  ⟨200, Json.obj [("value", Json.arr [])], ""⟩

/-- A 404 field rejection naming UCABSENCE_TIME. -/
def rejectUC : HttpResponse :=
  ⟨404, Json.null, "Resource not found for the segment 'UCABSENCE_TIME'."⟩

/-- Scenario scripts: partition A gets the field rejection and then an
accepting page; partition B gets an accepting page. -/
def scriptA : String → List HttpResponse :=
  fun c => if c = "A" then [rejectUC, okEmpty] else [okEmpty]

/-- A 404 field rejection naming the partition-key field itself, aimed at
the discovery request. -/
def discReject : HttpResponse :=
  ⟨404, Json.null, "Resource not found for the segment 'C0CHAR_STRUCTURE'."⟩

-- ---------------------- Helper lemmas ----------------------

theorem escChars_eq (cs : List Char) :
    escChars cs = cs.flatMap fun c => if c = quoteChar then [c, c] else [c] := by
  induction cs with
  | nil => rfl
  | cons c cs ih =>
    by_cases h : c = quoteChar
    · subst h; simp [escChars, ih]
    · simp [escChars, h, ih]

theorem fetchRowsLoop_head (fv : String) (top : Nat) (fields : List String)
    (server : List HttpResponse) :
    (fetchRowsLoop fv top fields server).log.head? = some (mkMainReq fields top fv) := by
  cases server with
  | nil => rfl
  | cons r rest =>
    by_cases hok : r.ok
    · simp [fetchRowsLoop, hok]
    · cases hstep : negotiateStep fields r.status r.text with
      | none => simp [fetchRowsLoop, hok, hstep]
      | some mr => simp [fetchRowsLoop, hok, hstep]

theorem followPages_falsy (server : List HttpResponse) (next_link : Json)
    (acc : List Json) (h : next_link.isTruthy = false) :
    followPages server next_link acc = ⟨.ok acc, [], server⟩ := by
  cases server with
  | nil => simp [followPages, h]
  | cons r rest => simp [followPages, h]

theorem followPages_params (server : List HttpResponse) :
    ∀ (next_link : Json) (acc : List Json),
    ∀ req ∈ (followPages server next_link acc).log, req.params = [] := by
  induction server with
  | nil =>
    intro next_link acc req hreq
    by_cases h : next_link.isTruthy
    · simp [followPages, h] at hreq
      subst hreq; rfl
    · simp [followPages, h] at hreq
  | cons r rest ih =>
    intro next_link acc req hreq
    by_cases h : next_link.isTruthy
    · by_cases hok : r.ok
      · simp [followPages, h, hok] at hreq
        rcases hreq with rfl | hreq
        · rfl
        · exact ih _ _ req hreq
      · simp [followPages, h, hok] at hreq
        subst hreq; rfl
    · simp [followPages, h] at hreq

-- ---------------------- Claim theorems ----------------------

/-- Claim C4 (confirmed): for every decoded payload object, a present
legacy marker key makes unwrap return exactly the legacy results list and
legacy next pointer regardless of any modern-shape keys also present;
otherwise the modern value list and next-link pointer are returned; and a
payload carrying no key of either shape yields an empty record list and no
continuation token rather than an error. -/
theorem claim_C4 (kvs : List (String × Json)) :
    (∀ dv, jlookup "d" kvs = some dv →
       extract_results_and_next (Json.obj kvs)
         = (dv.getD "results" (Json.arr []), dv.get "__next"))
    ∧ (jlookup "d" kvs = none →
       extract_results_and_next (Json.obj kvs)
         = ((Json.obj kvs).getD "value" (Json.arr []),
            pyOr ((Json.obj kvs).get "@odata.nextLink")
              ((Json.obj kvs).get "odata.nextLink")))
    ∧ (jlookup "d" kvs = none → jlookup "value" kvs = none →
       jlookup "@odata.nextLink" kvs = none → jlookup "odata.nextLink" kvs = none →
       extract_results_and_next (Json.obj kvs) = (Json.arr [], Json.null)) := by
  refine ⟨?_, ?_, ?_⟩
  · intro dv h
    simp [extract_results_and_next, Json.hasKey, Json.get, Json.getD, h]
  · intro h
    simp [extract_results_and_next, Json.hasKey, h]
  · intro h1 h2 h3 h4
    simp [extract_results_and_next, Json.hasKey, Json.get, Json.getD, pyOr,
      Json.isTruthy, h1, h2, h3, h4]

/-- Witness for C4: a payload carrying the legacy marker next to modern
keys is unwrapped from the legacy envelope alone. -/
theorem claim_C4_witness :
    extract_results_and_next (Json.obj
      [("d", Json.obj [("results", Json.arr [Json.str "r1"]), ("__next", Json.str "N")]),
       ("value", Json.arr [Json.str "m"]), ("@odata.nextLink", Json.str "M")])
      = (Json.arr [Json.str "r1"], Json.str "N") :=
  (claim_C4 [("d", Json.obj [("results", Json.arr [Json.str "r1"]), ("__next", Json.str "N")]),
             ("value", Json.arr [Json.str "m"]), ("@odata.nextLink", Json.str "M")]).1
    (Json.obj [("results", Json.arr [Json.str "r1"]), ("__next", Json.str "N")]) rfl

/-- Claim C10 (confirmed): a modern payload whose "@odata.nextLink" entry
is null or the empty string falls back to the bare "odata.nextLink" entry,
and an empty-string continuation token terminates pagination without a
further request. -/
theorem claim_C10 :
    (∀ (kvs : List (String × Json)) (v : Json),
       jlookup "d" kvs = none → jlookup "@odata.nextLink" kvs = some v →
       (v = Json.null ∨ v = Json.str "") →
       (extract_results_and_next (Json.obj kvs)).2
         = (Json.obj kvs).get "odata.nextLink")
    ∧ (∀ (server : List HttpResponse) (acc : List Json),
       followPages server (Json.str "") acc = ⟨.ok acc, [], server⟩) := by
  constructor
  · intro kvs v hd hv hfalsy
    have hget : (Json.obj kvs).get "@odata.nextLink" = v := by
      simp [Json.get, Json.getD, hv]
    simp only [extract_results_and_next, Json.hasKey, hd, Option.isSome_none,
      Bool.false_eq_true, if_false]
    rw [hget]
    rcases hfalsy with rfl | rfl <;> simp [pyOr, Json.isTruthy]
  · intro server acc
    exact followPages_falsy server (Json.str "") acc (by simp [Json.isTruthy])

/-- Witness for C10: a concrete null-valued "@odata.nextLink" falls back to
the bare key, and the empty-string token issues no request. -/
theorem claim_C10_witness :
    (extract_results_and_next (Json.obj
       [("value", Json.arr []), ("@odata.nextLink", Json.null),
        ("odata.nextLink", Json.str "legacy")])).2 = Json.str "legacy"
    ∧ followPages [okEmpty] (Json.str "") [Json.str "row"]
        = ⟨.ok [Json.str "row"], [], [okEmpty]⟩ :=
  ⟨claim_C10.1 [("value", Json.arr []), ("@odata.nextLink", Json.null),
      ("odata.nextLink", Json.str "legacy")] Json.null rfl rfl (Or.inl rfl),
   claim_C10.2 [okEmpty] [Json.str "row"]⟩

/-- Claim C9 (confirmed): the first page request of a partition carries the
filter expression on C0CHAR_STRUCTURE whose value literal doubles every
single quote of the partition value and changes nothing else. -/
theorem claim_C9 (code : String) (top : Nat) (server : List HttpResponse) :
    (fetch_rows_for_access_code code top server).log.head?
      = some (mkMainReq SELECT_FIELDS top (escapeQuotes code))
    ∧ (mkMainReq SELECT_FIELDS top (escapeQuotes code)).params.lookup "$filter"
      = some ("C0CHAR_STRUCTURE eq '" ++ escapeQuotes code ++ "'")
    ∧ (escapeQuotes code).data
      = code.data.flatMap (fun c => if c = quoteChar then [c, c] else [c])
    ∧ escapeQuotes "O'Brien" = "O''Brien" := by
  refine ⟨fetchRowsLoop_head (escapeQuotes code) top SELECT_FIELDS server, ?_, ?_, rfl⟩
  · rfl
  · exact escChars_eq code.data

-- ---------------------- Sorting lemmas ----------------------

theorem strLt_iff (s t : String) : strLt s t = true ↔ s < t := by
  rw [String.lt_iff_toList_lt]
  exact decide_eq_true_iff

theorem mem_insertUnique (s x : String) (l : List String) :
    x ∈ insertUnique s l ↔ x = s ∨ x ∈ l := by
  induction l with
  | nil => simp [insertUnique]
  | cons t ts ih =>
    simp only [insertUnique]
    split_ifs with h1 h2
    · subst h1
      simp only [List.mem_cons]
      tauto
    · simp only [List.mem_cons]
    · simp only [List.mem_cons, ih]
      tauto

theorem pairwise_insertUnique (s : String) (l : List String)
    (h : l.Pairwise (· < ·)) : (insertUnique s l).Pairwise (· < ·) := by
  induction l with
  | nil => simp [insertUnique]
  | cons t ts ih =>
    rw [List.pairwise_cons] at h
    obtain ⟨ht, hts⟩ := h
    simp only [insertUnique]
    split_ifs with h1 h2
    · exact List.pairwise_cons.mpr ⟨ht, hts⟩
    · refine List.pairwise_cons.mpr ⟨?_, List.pairwise_cons.mpr ⟨ht, hts⟩⟩
      intro x hx
      rcases List.mem_cons.mp hx with rfl | hx
      · exact (strLt_iff s x).mp h2
      · exact lt_trans ((strLt_iff s t).mp h2) (ht x hx)
    · refine List.pairwise_cons.mpr ⟨?_, ih hts⟩
      intro x hx
      rcases (mem_insertUnique s x ts).mp hx with rfl | hx
      · rcases lt_trichotomy t x with hlt | heq | hgt
        · exact hlt
        · exact absurd heq.symm h1
        · exact absurd ((strLt_iff x t).mpr hgt) (by simpa using h2)
      · exact ht x hx

theorem pairwise_sortedDedup (l : List String) :
    (sortedDedup l).Pairwise (· < ·) := by
  induction l with
  | nil => simp [sortedDedup]
  | cons t ts ih => exact pairwise_insertUnique t (sortedDedup ts) ih

theorem mem_sortedDedup (x : String) (l : List String) :
    x ∈ sortedDedup l ↔ x ∈ l := by
  induction l with
  | nil => simp [sortedDedup]
  | cons t ts ih =>
    show x ∈ insertUnique t (sortedDedup ts) ↔ _
    rw [mem_insertUnique, ih]
    simp [List.mem_cons]

theorem rawCodes_ne_empty (results : Json) :
    ∀ s ∈ rawCodes results, s ≠ "" := by
  intro s hs
  simp only [rawCodes, List.mem_filterMap] at hs
  obtain ⟨row, _, hrow⟩ := hs
  cases hv : row.get "C0CHAR_STRUCTURE" <;> simp [getCode, hv] at hrow
  rcases hrow with ⟨hne, rfl⟩
  exact hne

/-- Claim C2 counterexample: a field-not-found rejection naming exactly
the (single, hard-coded) partition-key candidate is not skipped and does
not produce NoPartitionKeyFound; the discovery call surfaces the HTTP
error after its single request. -/
theorem claim_C2_counterexample :
    (fetch_distinct_access_codes 10000 [discReject]).result
      = .error (.httpError 404
          "Resource not found for the segment 'C0CHAR_STRUCTURE'.")
    ∧ (fetch_distinct_access_codes 10000 [discReject]).result
        ≠ .error .noPartitionKeyFound
    ∧ (fetch_distinct_access_codes 10000 [discReject]).log.length = 1 := by
  refine ⟨rfl, ?_, rfl⟩
  intro h
  exact EtlError.noConfusion (Except.error.inj h)

/-- Claim C2 (corrected): the code performs no candidate probing at all.
The partition key is the hard-coded field C0CHAR_STRUCTURE; discovery
issues exactly one request selecting only that field, any failure of that
request (a field-not-found rejection included) is fatal and surfaces the
HTTP error, and NoPartitionKeyFound is never produced. -/
theorem claim_C2_amended (top : Nat) (server : List HttpResponse) :
    (fetch_distinct_access_codes top server).log = [mkCodesReq top]
    ∧ (fetch_distinct_access_codes top server).result
        ≠ .error .noPartitionKeyFound
    ∧ (∀ r rest, server = r :: rest → r.ok = false →
        (fetch_distinct_access_codes top server).result
          = .error (.httpError r.status r.text)) := by
  cases server with
  | nil =>
    refine ⟨rfl, ?_, ?_⟩
    · intro h
      exact EtlError.noConfusion (Except.error.inj h)
    · intro r rest h
      cases h
  | cons r rest =>
    by_cases hok : r.ok
    · refine ⟨by simp [fetch_distinct_access_codes, hok], ?_, ?_⟩
      · intro h
        rw [show (fetch_distinct_access_codes top (r :: rest)).result
              = .ok (sortedDedup (rawCodes (extract_results_and_next r.body).1))
            from by simp [fetch_distinct_access_codes, hok]] at h
        cases h
      · intro r' rest' heq hfail
        cases heq
        rw [hok] at hfail
        cases hfail
    · refine ⟨by simp [fetch_distinct_access_codes, hok], ?_, ?_⟩
      · intro h
        rw [show (fetch_distinct_access_codes top (r :: rest)).result
              = .error (.httpError r.status r.text)
            from by simp [fetch_distinct_access_codes, hok]] at h
        exact EtlError.noConfusion (Except.error.inj h)
      · intro r' rest' heq hfail
        cases heq
        simp [fetch_distinct_access_codes, hok]

/-- Witness for the amended C2: the rejected discovery of the
counterexample scenario indeed surfaces the HTTP 404. -/
theorem claim_C2_amended_witness :
    (fetch_distinct_access_codes 10000 [discReject]).result
      = .error (.httpError discReject.status discReject.text) :=
  (claim_C2_amended 10000 [discReject]).2.2 discReject [] rfl rfl

/-- Claim C8 (confirmed): the partition-value list of a successful
discovery response is strictly ascending in lexical order (hence
duplicate-free), contains no empty value (empty and null column values are
dropped), and contains exactly the values extracted from the response, so
the same response always yields the same ordered sequence. -/
theorem claim_C8 (top : Nat) (server : List HttpResponse) (codes : List String)
    (h : (fetch_distinct_access_codes top server).result = .ok codes) :
    codes.Pairwise (· < ·)
    ∧ codes.Nodup
    ∧ (∀ s ∈ codes, s ≠ "")
    ∧ (∀ r rest, server = r :: rest →
        ∀ x, x ∈ codes ↔ x ∈ rawCodes (extract_results_and_next r.body).1) := by
  cases server with
  | nil => cases h
  | cons r rest =>
    by_cases hok : r.ok
    · have hcodes : codes = sortedDedup (rawCodes (extract_results_and_next r.body).1) := by
        simp [fetch_distinct_access_codes, hok] at h
        exact h.symm
      subst hcodes
      refine ⟨pairwise_sortedDedup _, ?_, ?_, ?_⟩
      · exact (pairwise_sortedDedup _).imp ne_of_lt
      · intro s hs
        exact rawCodes_ne_empty _ s ((mem_sortedDedup s _).mp hs)
      · intro r' rest' heq x
        cases heq
        exact mem_sortedDedup x _
    · simp [fetch_distinct_access_codes, hok] at h

/-- Witness for C8: the two-value discovery response of the run scenario. -/
theorem claim_C8_witness :
    (["A", "B"] : List String).Pairwise (· < ·)
    ∧ (["A", "B"] : List String).Nodup
    ∧ (∀ s ∈ (["A", "B"] : List String), s ≠ "")
    ∧ (∀ r rest, ([discResp] : List HttpResponse) = r :: rest →
        ∀ x, (x ∈ (["A", "B"] : List String))
          ↔ x ∈ rawCodes (extract_results_and_next r.body).1) :=
  claim_C8 10000 [discResp] ["A", "B"] rfl

-- ---------------------- Negotiation lemmas ----------------------

theorem negotiateStep_inv {fields : List String} {status : Nat} {text : String}
    {m : String} {red : List String}
    (h : negotiateStep fields status text = some (m, red)) :
    m ∈ fields ∧ red = fields.erase m ∧ 1 < fields.length := by
  by_cases h404 : status = 404
  · simp only [negotiateStep, if_pos h404] at h
    cases hms : extract_missing_segment text with
    | none => simp only [hms] at h; cases h
    | some f =>
      simp only [hms] at h
      by_cases hc : f ∈ fields ∧ 1 < fields.length
      · rw [if_pos hc] at h
        obtain ⟨rfl, rfl⟩ := Prod.mk.injEq .. ▸ Option.some.inj h
        exact ⟨hc.1, rfl, hc.2⟩
      · rw [if_neg hc] at h
        cases h
  · simp only [negotiateStep, if_neg h404] at h
    cases h

/-- Claim C3 (confirmed): a failed page request of a partition extraction
is retried with one field removed exactly when the status is 404, the body
text names a quoted field after the word segment, that field is currently
requested, and at least one field would remain; every other failure raises
the HTTP error after that single request. -/
theorem claim_C3 (fv : String) (top : Nat) (fields : List String)
    (r : HttpResponse) (rest : List HttpResponse) (hfail : r.ok = false) :
    (∀ f, r.status = 404 → extract_missing_segment r.text = some f →
       f ∈ fields → 1 < fields.length →
       fetchRowsLoop fv top fields (r :: rest)
         = ⟨(fetchRowsLoop fv top (fields.erase f) rest).result,
            mkMainReq fields top fv
              :: (fetchRowsLoop fv top (fields.erase f) rest).log,
            (fetchRowsLoop fv top (fields.erase f) rest).leftover⟩)
    ∧ (¬ (r.status = 404 ∧ ∃ f, extract_missing_segment r.text = some f
            ∧ f ∈ fields ∧ 1 < fields.length) →
       fetchRowsLoop fv top fields (r :: rest)
         = ⟨.error (.httpError r.status r.text), [mkMainReq fields top fv], rest⟩) := by
  constructor
  · intro f h404 hems hmem hlen
    have hstep : negotiateStep fields r.status r.text = some (f, fields.erase f) := by
      simp [negotiateStep, h404, hems, hmem, hlen]
    simp [fetchRowsLoop, hfail, hstep]
  · intro hn
    have hstep : negotiateStep fields r.status r.text = none := by
      by_cases h404 : r.status = 404
      · cases hems : extract_missing_segment r.text with
        | none => simp [negotiateStep, h404, hems]
        | some f =>
          have hc : ¬ (f ∈ fields ∧ 1 < fields.length) := fun hc =>
            hn ⟨h404, f, hems, hc.1, hc.2⟩
          simp [negotiateStep, h404, hems, hc]
      · simp [negotiateStep, h404]
    simp [fetchRowsLoop, hfail, hstep]

/-- Witness for C3: a 404 naming the requested field Y leads to a retry of
the same page with Y removed. -/
theorem claim_C3_witness :
    fetchRowsLoop "A" 5 ["X", "Y"]
        [⟨404, Json.null, "Resource not found for the segment 'Y'."⟩]
      = ⟨.error .noResponse,
         [mkMainReq ["X", "Y"] 5 "A", mkMainReq ["X"] 5 "A"], []⟩ :=
  (claim_C3 "A" 5 ["X", "Y"]
      ⟨404, Json.null, "Resource not found for the segment 'Y'."⟩ [] rfl).1
    "Y" rfl rfl (by simp) (by simp)

theorem negotiationTrace_mem (rej : List (Nat × String)) :
    ∀ (fields : List String),
    ∀ x ∈ (negotiationTrace fields rej).map Prod.fst, x ∈ fields := by
  induction rej with
  | nil => intro fields x hx; simp [negotiationTrace] at hx
  | cons p rest ih =>
    intro fields x hx
    obtain ⟨status, text⟩ := p
    cases hstep : negotiateStep fields status text with
    | none => simp [negotiationTrace, hstep] at hx
    | some mr =>
      obtain ⟨m, red⟩ := mr
      obtain ⟨hmem, hred, _⟩ := negotiateStep_inv hstep
      subst hred
      simp only [negotiationTrace, hstep, List.map_cons, List.mem_cons] at hx
      rcases hx with rfl | hx
      · exact hmem
      · exact List.mem_of_mem_erase (ih (fields.erase m) x hx)

/-- Claim C5 (confirmed): along any sequence of rejection responses the
negotiation loop strictly shrinks the field set at every step, performs at
most as many steps as the initial field count, and (when the initial list
is duplicate-free) never removes the same field twice. -/
theorem claim_C5 (fields : List String) (rejections : List (Nat × String)) :
    List.Chain' (fun a b => b.length < a.length)
      (fields :: (negotiationTrace fields rejections).map Prod.snd)
    ∧ (negotiationTrace fields rejections).length ≤ fields.length
    ∧ (fields.Nodup → ((negotiationTrace fields rejections).map Prod.fst).Nodup) := by
  induction rejections generalizing fields with
  | nil =>
    refine ⟨?_, ?_, ?_⟩
    · simp [negotiationTrace]
    · simp [negotiationTrace]
    · intro _; simp [negotiationTrace]
  | cons p rest ih =>
    obtain ⟨status, text⟩ := p
    cases hstep : negotiateStep fields status text with
    | none =>
      refine ⟨?_, ?_, ?_⟩
      · simp [negotiationTrace, hstep]
      · simp [negotiationTrace, hstep]
      · intro _; simp [negotiationTrace, hstep]
    | some mr =>
      obtain ⟨m, red⟩ := mr
      obtain ⟨hmem, hred, hlen⟩ := negotiateStep_inv hstep
      subst hred
      have hshort : (fields.erase m).length < fields.length := by
        rw [List.length_erase_of_mem hmem]
        omega
      obtain ⟨ihchain, ihlen, ihnodup⟩ := ih (fields.erase m)
      refine ⟨?_, ?_, ?_⟩
      · simp only [negotiationTrace, hstep, List.map_cons]
        exact List.chain'_cons.mpr ⟨hshort, ihchain⟩
      · simp only [negotiationTrace, hstep, List.length_cons]
        rw [List.length_erase_of_mem hmem] at ihlen
        omega
      · intro hnd
        simp only [negotiationTrace, hstep, List.map_cons, List.nodup_cons]
        refine ⟨?_, ihnodup (hnd.erase m)⟩
        intro hmx
        have : m ∈ fields.erase m :=
          negotiationTrace_mem rest (fields.erase m) m hmx
        exact absurd ((hnd.mem_erase_iff).mp this).1 (by simp)

/-- Witness for C5: a two-rejection sequence over three duplicate-free
fields removes two distinct fields. -/
theorem claim_C5_witness :
    ((negotiationTrace ["X", "Y", "Z"]
        [(404, "bad segment 'Y' here"), (404, "bad segment 'X' here")]).map
      Prod.fst).Nodup :=
  (claim_C5 ["X", "Y", "Z"]
      [(404, "bad segment 'Y' here"), (404, "bad segment 'X' here")]).2.2
    (by simp)

/-- Claim C6 (confirmed): the orchestrator's unified record list is the
concatenation, in discovery order, of exactly the full row sets of the
partitions whose extraction succeeded; a failing partition contributes no
records and appears once in the failure log, and the remaining partitions
are still processed. -/
theorem claim_C6 (scriptFor : String → List HttpResponse) (codes : List String) :
    (runCodes scriptFor codes).records
      = codes.flatMap (fun c =>
          match (fetch_rows_for_access_code c 5000 (scriptFor c)).result with
          | .ok rows => rows
          | .error _ => [])
    ∧ (runCodes scriptFor codes).failures
      = codes.filter fun c =>
          isErr (fetch_rows_for_access_code c 5000 (scriptFor c)).result := by
  induction codes with
  | nil => exact ⟨rfl, rfl⟩
  | cons c rest ih =>
    obtain ⟨ih1, ih2⟩ := ih
    cases hres : (fetch_rows_for_access_code c 5000 (scriptFor c)).result with
    | ok rows =>
      constructor
      · simp [runCodes, hres, ih1]
      · simp [runCodes, hres, ih2, isErr, List.filter_cons]
    | error e =>
      constructor
      · simp [runCodes, hres, ih1]
      · simp [runCodes, hres, ih2, isErr, List.filter_cons]

-- ---------------------- Pagination chain lemmas ----------------------

theorem extract_mkPageResp (p : List Json × Json) :
    extract_results_and_next (mkPageResp p).body
      = (Json.arr p.1, pyOr p.2 Json.null) := rfl

theorem followPages_step (p : List Json × Json) (server : List HttpResponse)
    (t : Json) (ht : t.isTruthy = true) (acc : List Json) :
    followPages (mkPageResp p :: server) t acc
      = ⟨(followPages server (pyOr p.2 Json.null) (acc ++ p.1)).result,
         ⟨t, []⟩ :: (followPages server (pyOr p.2 Json.null) (acc ++ p.1)).log,
         (followPages server (pyOr p.2 Json.null) (acc ++ p.1)).leftover⟩ := by
  have hok : (mkPageResp p).ok = true := rfl
  simp [followPages, ht, hok, extract_mkPageResp, Json.toRows]

theorem followPages_chain (specs : List (List Json × Json)) :
    chainOK specs = true →
    ∀ t : Json, t.isTruthy = true →
    ∀ (extra : List HttpResponse) (acc : List Json),
    followPages (specs.map mkPageResp ++ extra) t acc
      = ⟨.ok (acc ++ (specs.map Prod.fst).flatten),
         ⟨t, []⟩ :: (specs.dropLast.map fun p => (⟨p.2, []⟩ : Request)),
         extra⟩ := by
  induction specs with
  | nil => intro hchain; simp [chainOK] at hchain
  | cons p rest ih =>
    intro hchain t ht extra acc
    cases rest with
    | nil =>
      have hp : p.2.isTruthy = false := by simpa [chainOK] using hchain
      have hnl : pyOr p.2 Json.null = Json.null := by simp [pyOr, hp]
      rw [show ([p].map mkPageResp ++ extra) = mkPageResp p :: extra by simp]
      rw [followPages_step p extra t ht acc, hnl,
        followPages_falsy extra Json.null (acc ++ p.1) rfl]
      simp
    | cons q rest' =>
      have hsplit : p.2.isTruthy = true ∧ chainOK (q :: rest') = true := by
        simpa [chainOK] using hchain
      have hnl : pyOr p.2 Json.null = p.2 := by simp [pyOr, hsplit.1]
      rw [show ((p :: q :: rest').map mkPageResp ++ extra)
            = mkPageResp p :: ((q :: rest').map mkPageResp ++ extra) by simp]
      rw [followPages_step p ((q :: rest').map mkPageResp ++ extra) t ht acc, hnl,
        ih hsplit.2 p.2 hsplit.1 extra (acc ++ p.1)]
      simp

theorem fetchRowsLoop_ok (fv : String) (top : Nat) (fields : List String)
    (p : List Json × Json) (server : List HttpResponse) :
    fetchRowsLoop fv top fields (mkPageResp p :: server)
      = ⟨(followPages server (pyOr p.2 Json.null) p.1).result,
         mkMainReq fields top fv
           :: (followPages server (pyOr p.2 Json.null) p.1).log,
         (followPages server (pyOr p.2 Json.null) p.1).leftover⟩ := by
  have hok : (mkPageResp p).ok = true := rfl
  simp [fetchRowsLoop, hok, extract_mkPageResp, Json.toRows]

/-- Claim C7 (confirmed): over any continuation chain of n pages the
partition extractor issues exactly n requests — the first-page request
followed by one request per token, each using the token verbatim as the
URL with no query parameters, in continuation order — accumulates the
records in request order, and stops exactly at the first page without a
truthy continuation token. -/
theorem claim_C7 (code : String) (top : Nat) (specs : List (List Json × Json))
    (extra : List HttpResponse) (hchain : chainOK specs = true) :
    fetch_rows_for_access_code code top (specs.map mkPageResp ++ extra)
      = ⟨.ok ((specs.map Prod.fst).flatten),
         mkMainReq SELECT_FIELDS top (escapeQuotes code)
           :: (specs.dropLast.map fun p => (⟨p.2, []⟩ : Request)),
         extra⟩ := by
  cases specs with
  | nil => simp [chainOK] at hchain
  | cons p rest =>
    show fetchRowsLoop (escapeQuotes code) top SELECT_FIELDS _ = _
    cases rest with
    | nil =>
      have hp : p.2.isTruthy = false := by simpa [chainOK] using hchain
      have hnl : pyOr p.2 Json.null = Json.null := by simp [pyOr, hp]
      rw [show ([p].map mkPageResp ++ extra) = mkPageResp p :: extra by simp]
      rw [fetchRowsLoop_ok, hnl, followPages_falsy extra Json.null p.1 rfl]
      simp
    | cons q rest' =>
      have hsplit : p.2.isTruthy = true ∧ chainOK (q :: rest') = true := by
        simpa [chainOK] using hchain
      have hnl : pyOr p.2 Json.null = p.2 := by simp [pyOr, hsplit.1]
      rw [show ((p :: q :: rest').map mkPageResp ++ extra)
            = mkPageResp p :: ((q :: rest').map mkPageResp ++ extra) by simp]
      rw [fetchRowsLoop_ok, hnl,
        followPages_chain (q :: rest') hsplit.2 p.2 hsplit.1 extra p.1]
      simp

/-- Witness for C7: a three-page chain (tokens T1, T2, then none) makes
exactly three requests and accumulates the three pages in order. -/
theorem claim_C7_witness :
    fetch_rows_for_access_code "A" 5000
        ([([Json.str "r1"], Json.str "T1"), ([Json.str "r2"], Json.str "T2"),
          ([Json.str "r3"], Json.null)].map mkPageResp ++ [])
      = ⟨.ok [Json.str "r1", Json.str "r2", Json.str "r3"],
         [mkMainReq SELECT_FIELDS 5000 (escapeQuotes "A"),
          ⟨Json.str "T1", []⟩, ⟨Json.str "T2", []⟩], []⟩ :=
  claim_C7 "A" 5000
    [([Json.str "r1"], Json.str "T1"), ([Json.str "r2"], Json.str "T2"),
     ([Json.str "r3"], Json.null)] [] rfl

/-- Claim C1 counterexample: in a concrete run the first partition's
negotiation drops UCABSENCE_TIME and its reduced request succeeds, yet the
next partition's first request requests the full configured field list
again, re-requesting the removed field — so the negotiated set is not
frozen across partitions. -/
theorem claim_C1_counterexample :
    runSelects (run_etl [discResp] scriptA)
      = [some "C0CHAR_STRUCTURE",
         some (String.intercalate "," SELECT_FIELDS),
         some (String.intercalate "," (SELECT_FIELDS.erase "UCABSENCE_TIME")),
         some (String.intercalate "," SELECT_FIELDS)]
    ∧ "UCABSENCE_TIME" ∈ SELECT_FIELDS
    ∧ runFailures (run_etl [discResp] scriptA) = [] := by
  refine ⟨rfl, by simp [SELECT_FIELDS], rfl⟩

/-- Claim C1 (corrected): the field set is frozen only within a single
partition's extraction — after a successful page, continuation requests
carry no field parameters at all — but it is not reused across partitions:
every partition's first request restarts from the full configured field
list, re-requesting previously removed fields. -/
theorem claim_C1_amended :
    (∀ (code : String) (top : Nat) (server : List HttpResponse),
       (fetch_rows_for_access_code code top server).log.head?
         = some (mkMainReq SELECT_FIELDS top (escapeQuotes code)))
    ∧ (∀ (server : List HttpResponse) (next_link : Json) (acc : List Json),
       ∀ req ∈ (followPages server next_link acc).log, req.params = []) :=
  ⟨fun code top server => fetchRowsLoop_head (escapeQuotes code) top SELECT_FIELDS server,
   fun server next_link acc req h => followPages_params server next_link acc req h⟩

/-- Witness for the amended C1: a partition call's first request uses the
full field list, and a concrete continuation request carries no
parameters. -/
theorem claim_C1_amended_witness :
    (fetch_rows_for_access_code "A" 5000 []).log.head?
      = some (mkMainReq SELECT_FIELDS 5000 (escapeQuotes "A"))
    ∧ (⟨Json.str "T", []⟩ : Request).params = [] :=
  ⟨claim_C1_amended.1 "A" 5000 [],
   claim_C1_amended.2 [] (Json.str "T") [] ⟨Json.str "T", []⟩
     (by simp [followPages, Json.isTruthy])⟩

end Etl
